import Mathlib

/-!
Verification of `vergeml/display2.py` (terminal spinner / output
multiplexing engine) against its natural-language specification.

The Python source is shallowly embedded: pure helpers (`_text_len`,
`_text_ljust`) become Lean functions on `List Char`; the spinner worker
loop (`_SpinnerThread.run`) becomes a step function over an explicit
worker state consuming a list of display events; the process-global
registry (`_GlobalOutput`) becomes a record with explicit
register/deregister operations; the `Spinner` / `ProgressSpinner`
session API becomes pure functions over those states.  Python machine
floats in `ProgressSpinner.update` are modelled by an executable
binary64 round-to-nearest-even function over `ℚ` (valid in the normal
range, which covers all inputs appearing here).
-/

set_option maxRecDepth 8192

/-- Convert a string literal to the `List Char` representation used
throughout this development. -/
def strL (s : String) : List Char := s.toList

/-- Characters stripped by Python's `str.strip()` (ASCII whitespace,
the C0 separator block, NEL and NBSP; the exotic higher Unicode space
code points never occur in this program's data). -/
def isPySpace (c : Char) : Bool :=
  (9 ≤ c.toNat && c.toNat ≤ 13) || c.toNat = 32 ||
  (28 ≤ c.toNat && c.toNat ≤ 31) || c.toNat = 0x85 || c.toNat = 0xA0

/-- Python `text.strip()`: remove leading and trailing whitespace. -/
def pyStrip (l : List Char) : List Char :=
  ((l.dropWhile isPySpace).reverse.dropWhile isPySpace).reverse

/-- Parameter byte of an ANSI CSI sequence: bytes 0x30 to 0x3F. -/
def isAnsiParam (c : Char) : Bool := 0x30 ≤ c.toNat && c.toNat ≤ 0x3F

/-- Intermediate byte of an ANSI CSI sequence: bytes 0x20 to 0x2F. -/
def isAnsiInterm (c : Char) : Bool := 0x20 ≤ c.toNat && c.toNat ≤ 0x2F

/-- Final byte of an ANSI CSI sequence: bytes 0x40 to 0x7E. -/
def isAnsiFinal (c : Char) : Bool := 0x40 ≤ c.toNat && c.toNat ≤ 0x7E

/-- Scanner mode for the ANSI-escape remover: scanning plain text,
just after an ESC byte, or inside a CSI sequence (`interm` records
whether an intermediate byte has been seen, so that a later parameter
byte is recognised as breaking the sequence; `buf` holds the consumed
parameter/intermediate bytes in reverse, to be replayed verbatim if the
sequence never reaches a final byte). -/
inductive AnsiMode where
  | go : AnsiMode
  | esc : AnsiMode
  | csi (interm : Bool) (buf : List Char) : AnsiMode

/-- One-pass implementation of `_ANSI_REMOVER.sub('', text)` for the
regex `ESC` `lbracket` params-star interms-star final (parameter bytes
0x30-0x3F, intermediate bytes 0x20-0x2F, final byte 0x40-0x7E):
non-overlapping leftmost matches are removed.  Because the three byte
classes are mutually disjoint and none contains ESC, greedy one-pass
scanning with verbatim replay on failure is exactly the regex
semantics. -/
def stripAnsiRun : AnsiMode → List Char → List Char
  | .go, [] => []
  | .go, c :: rest =>
    if c = '\x1B' then stripAnsiRun .esc rest else c :: stripAnsiRun .go rest
  | .esc, [] => ['\x1B']
  | .esc, c :: rest =>
    if c = '[' then stripAnsiRun (.csi false []) rest
    else '\x1B' ::
      (if c = '\x1B' then stripAnsiRun .esc rest else c :: stripAnsiRun .go rest)
  | .csi _ buf, [] => '\x1B' :: '[' :: buf.reverse
  | .csi ph buf, c :: rest =>
    if !ph && isAnsiParam c then stripAnsiRun (.csi false (c :: buf)) rest
    else if isAnsiInterm c then stripAnsiRun (.csi true (c :: buf)) rest
    else if isAnsiFinal c then stripAnsiRun .go rest
    else '\x1B' :: '[' :: buf.reverse ++
      (if c = '\x1B' then stripAnsiRun .esc rest else c :: stripAnsiRun .go rest)

/-- Remove all ANSI escape sequences, as `_ANSI_REMOVER.sub` does. -/
def stripAnsi (l : List Char) : List Char := stripAnsiRun .go l

/-- `_text_len(text)`: visible length, i.e. the length of the text after
stripping surrounding whitespace and ANSI escape sequences. -/
def _text_len (text : List Char) : Nat := (stripAnsi (pyStrip text)).length

/-- `_text_ljust(text, prev_len)`: pad with spaces up to the previously
rendered visible length. -/
def _text_ljust (text : List Char) (prev_len : Nat) : List Char :=
  let cur_len := _text_len text
  if cur_len < prev_len then text ++ List.replicate (prev_len - cur_len) ' '
  else text

example : _text_len (strL "  hi  ") = 2 := by decide
example : _text_len (strL "\x1B[31mab\x1B[0m") = 2 := by decide
example : stripAnsi (strL "\x1B[x") = [] := by decide
example : stripAnsi (strL "\x1B[0\x07a") = strL "\x1B[0\x07a" := by decide
example : stripAnsi (strL "a\x1B[") = strL "a\x1B[" := by decide
example : _text_ljust (strL "ab") 4 = strL "ab  " := by decide
example : _text_len (strL "\r⠇ Working") = 9 := by decide
example : stripAnsi (strL "\x1B\x1B[0m") = strL "\x1B" := by decide
example : stripAnsi (strL "\x1B[ ;0m") = strL "\x1B[ ;0m" := by decide
example : stripAnsi (strL "\x1B[0 a") = [] := by decide
example : stripAnsi (strL "\x1B[0 \x1B[1mQ") = strL "\x1B[0 Q" := by decide
example : stripAnsi (strL "\x1B[12;34H") = [] := by decide
example : stripAnsi (strL "\x1B[0\x1B[1m") = strL "\x1B[0" := by decide

/-! ## The spinner worker (`_SpinnerThread.run`)

The worker thread consumes `(action, payload)` pairs from its request
queue.  A `queue.Empty` timeout (possible only once the timeout has
been switched from `None` to `0.05` by the first `stdout` event) is
modelled as an explicit `tick` event; a trace is *valid* when every
`tick` occurs at a state whose timeout is set. -/

/-- A queue item consumed by the worker loop, or a `queue.Empty`
timeout (`tick`). -/
inductive Event where
  | stdout (payload : List Char) : Event
  | stderr (payload : List Char) : Event
  | stop (payload : List Char) : Event
  | tick : Event
deriving DecidableEq

def isStdoutEv : Event → Bool | .stdout _ => true | _ => false
def isStderrEv : Event → Bool | .stderr _ => true | _ => false
def isStopEv : Event → Bool | .stop _ => true | _ => false
def isTickEv : Event → Bool | .tick => true | _ => false

/-- The ten spinner glyphs of `_SpinnerThread.chars`, cycled by
`next(frames)`. -/
def spinnerChars : List Char := ['⠇', '⠏', '⠋', '⠙', '⠹', '⠸', '⠼', '⠴', '⠦', '⠧']

/-- The glyph produced by the k-th call of `next(frames)`. -/
def spinChar (k : Nat) : Char := spinnerChars.getD (k % 10) ' '

/-- Worker-local state of `_SpinnerThread.run`: animation frame
counter, current message `msg`, previously rendered visible length
`prev_len`, whether the wait timeout has been switched on by a first
`stdout` event, the ordered writes made to the real stdout and stderr,
and whether a `stop` event has terminated the loop. -/
structure WorkerState where
  frameIdx : Nat
  msg : List Char
  prevLen : Nat
  hasTimeout : Bool
  stdoutOut : List (List Char)
  stderrOut : List (List Char)
  stopped : Bool
deriving DecidableEq

/-- Initial worker state: `msg = ''`, `prev_len = 0`, `timeout = None`. -/
def initWorker : WorkerState :=
  { frameIdx := 0, msg := [], prevLen := 0, hasTimeout := false,
    stdoutOut := [], stderrOut := [], stopped := false }

/-- Python `text.split("\n")`. -/
def splitNl : List Char → List (List Char)
  | [] => [[]]
  | c :: rest =>
    if c = '\x0A' then [] :: splitNl rest
    else
      match splitNl rest with
      | [] => [[c]]
      | g :: gs => (c :: g) :: gs

example : splitNl (strL "a\nb") = [strL "a", strL "b"] := by decide
example : splitNl (strL "ab") = [strL "ab"] := by decide

/-- The spinner line text built by `_write_stdout` before padding:
`"\r" + next(frames) + " " + text`. -/
def writeStdoutText (k : Nat) (m : List Char) : List Char :=
  '\x0D' :: spinChar k :: ' ' :: m

/-- The sequence of writes `_write_stderr(text)` makes to the real
stderr: one write per line of `text.split("\n")`; the source computes
`line = line.strip()` for each line but then writes the whole `text`
each time (for the first line preceded by a carriage return and padded
to the previous visible length, terminated by a newline). -/
def writeStderrWrites (text : List Char) (prevLen : Nat) : List (List Char) :=
  (List.range (splitNl text).length).map fun idx =>
    if idx = 0 then '\x0D' :: (_text_ljust text prevLen ++ ['\x0A'])
    else text ++ ['\x0A']

/-- One iteration of the worker loop of `_SpinnerThread.run`.  After a
`stop` event the loop has exited, so further events are not consumed. -/
def workerStep (s : WorkerState) (e : Event) : WorkerState :=
  if s.stopped then s
  else
    match e with
    | .stdout payload =>
      -- the timeout is switched to 0.05 before the blank-payload test
      let s1 := { s with hasTimeout := true }
      let p := pyStrip payload
      if p.isEmpty then s1
      else
        let out := writeStdoutText s1.frameIdx p
        { s1 with
          msg := p
          frameIdx := s1.frameIdx + 1
          stdoutOut := s1.stdoutOut ++ [_text_ljust out s1.prevLen]
          prevLen := _text_len out }
    | .stderr payload =>
      let p := pyStrip payload
      if p.isEmpty then s
      else
        let out := writeStdoutText s.frameIdx s.msg
        { s with
          stderrOut := s.stderrOut ++ writeStderrWrites p s.prevLen
          frameIdx := s.frameIdx + 1
          stdoutOut := s.stdoutOut ++ [_text_ljust out 0]
          prevLen := _text_len out }
    | .tick =>
      -- `_write_stdout(msg, prev_len)` whose result is discarded:
      -- `prev_len` is left unchanged
      let out := writeStdoutText s.frameIdx s.msg
      { s with
        frameIdx := s.frameIdx + 1
        stdoutOut := s.stdoutOut ++ [_text_ljust out s.prevLen] }
    | .stop payload =>
      { s with
        stdoutOut :=
          s.stdoutOut ++ ['\x0D' :: (_text_ljust (pyStrip payload) s.prevLen ++ ['\x0A'])]
        stopped := true }

/-- Run the worker loop over a sequence of queue items / timeouts. -/
def processEvents (s : WorkerState) (es : List Event) : WorkerState :=
  es.foldl workerStep s

/-- A `tick` can only be delivered while the queue wait has a timeout:
with `timeout=None` the worker blocks until a real event arrives. -/
def validFrom : WorkerState → List Event → Bool
  | _, [] => true
  | s, e :: es =>
    (match e with
     | .tick => s.hasTimeout
     | _ => true) && validFrom (workerStep s e) es

example :
    (processEvents initWorker [.stdout (strL "Working")]).stdoutOut
      = [strL "\r⠇ Working"] := by decide
example :
    (processEvents initWorker [.stderr (strL "oops")]).stdoutOut
      = [strL "\r⠇ "] := by decide


/-! ## The global registry (`_GlobalOutput`) and the Spinner API -/

/-- Which object is currently installed as a process-wide stream
(`sys.stdout` / `sys.stderr`): the real stream or a `_FakeOut`
interceptor. -/
inductive SysStream where
  | real : SysStream
  | fake : SysStream
deriving DecidableEq

/-- The live `_SpinnerThread` as seen from the registry: its loop state
plus the not-yet-consumed queue items. -/
structure WorkerHandle where
  state : WorkerState
  pending : List Event
deriving DecidableEq

/-- A `Spinner` object: Python object identity is modelled by `id`
(registry comparisons are identity comparisons); `message` is the
principal message, `currentMessage` the mutable current message, and
`withColor` the color-support capability resolved at construction. -/
structure SpinnerObj where
  id : Nat
  message : List Char
  currentMessage : List Char
  withColor : Bool
deriving DecidableEq

/-- State of the `_GlobalOutput` singleton: the optional worker thread
(`Option` captures "at most one worker"), the spinner stack
(`_spinners`, pushed at the tail), and the current process-wide
stdout/stderr bindings. -/
structure GlobalOutput where
  spinnerThread : Option WorkerHandle
  spinners : List SpinnerObj
  sysStdout : SysStream
  sysStderr : SysStream
deriving DecidableEq

/-- The registry before any spinner is registered. -/
def initGlobal : GlobalOutput :=
  { spinnerThread := none, spinners := [], sysStdout := .real, sysStderr := .real }

/-- `_GlobalOutput.display` / `_SpinnerThread.display`: enqueue an
event for the worker.  The source asserts that a worker exists; in all
modelled flows one does, and the failing-assert case leaves the state
unchanged. -/
def postEvent (g : GlobalOutput) (e : Event) : GlobalOutput :=
  match g.spinnerThread with
  | some wk => { g with spinnerThread := some { wk with pending := wk.pending ++ [e] } }
  | none => g

/-- `_GlobalOutput.register_spinner`: on first registration create the
worker and swap both process streams for interceptors; then push the
spinner. -/
def register_spinner (g : GlobalOutput) (sp : SpinnerObj) : GlobalOutput :=
  let g1 :=
    match g.spinnerThread with
    | none =>
      { g with
        spinnerThread := some { state := initWorker, pending := [] }
        sysStdout := .fake
        sysStderr := .fake }
    | some _ => g
  { g1 with spinners := g1.spinners ++ [sp] }

/-- `_GlobalOutput.deregister_spinner`: pop the top of the spinner
stack and assert it is the spinner being deregistered (the returned
`Bool` is `false` when the assertion — or, on an empty stack, the
`list.pop()` itself — fails; the code after the assert then does not
run).  When the stack empties, `stop(msg)` drains the worker's queue
synchronously, the real streams are restored and the worker handle is
dropped; otherwise the final message is posted as a new stdout event. -/
def deregister_spinner (g : GlobalOutput) (sp : SpinnerObj) (msg : List Char) :
    GlobalOutput × Bool :=
  match g.spinners.getLast? with
  | none => (g, false)
  | some top =>
    let g1 := { g with spinners := g.spinners.dropLast }
    if top.id = sp.id then
      if g1.spinners.isEmpty then
        ({ g1 with spinnerThread := none, sysStdout := .real, sysStderr := .real }, true)
      else
        (postEvent g1 (.stdout msg), true)
    else (g1, false)

/-- The worker thread consuming everything currently in its queue. -/
def drainWorker (g : GlobalOutput) : GlobalOutput :=
  match g.spinnerThread with
  | some wk =>
    { g with spinnerThread := some { state := processEvents wk.state wk.pending, pending := [] } }
  | none => g

/-- Registry states reachable from `initGlobal` by completed
operations.  A deregistration whose assert fails aborts the process
(the spec classifies it as a fatal misuse error), so it does not
produce a continuing state. -/
inductive Reachable : GlobalOutput → Prop where
  | init : Reachable initGlobal
  | register (g : GlobalOutput) (sp : SpinnerObj) :
      Reachable g → Reachable (register_spinner g sp)
  | deregister (g : GlobalOutput) (sp : SpinnerObj) (msg : List Char) :
      Reachable g → (deregister_spinner g sp msg).2 = true →
      Reachable (deregister_spinner g sp msg).1
  | post (g : GlobalOutput) (e : Event) :
      Reachable g → Reachable (postEvent g e)
  | drain (g : GlobalOutput) :
      Reachable g → Reachable (drainWorker g)

/-- `Spinner.stop` reasons: the source accepts exactly the strings
`'done'`, `'cancel'` and `'fail'`. -/
inductive Reason where
  | done : Reason
  | cancel : Reason
  | fail : Reason
deriving DecidableEq

/-- Decimal digits of a natural number (Python `str`/`format`). -/
def natDigitsAux : Nat → Nat → List Char
  | 0, _ => []
  | fuel + 1, n =>
    if n = 0 then []
    else natDigitsAux fuel (n / 10) ++ [Char.ofNat (48 + n % 10)]

def natDigits (n : Nat) : List Char :=
  if n = 0 then ['0'] else natDigitsAux (n + 1) n

example : natDigits 31 = strL "31" := by decide
example : natDigits 0 = strL "0" := by decide

/-- `Spinner._wrap_color(text, color)`: wrap in an ANSI color escape
when color is supported. -/
def _wrap_color (sp : SpinnerObj) (text : List Char) (color : Nat) : List Char :=
  if sp.withColor then
    ('\x1B' :: '[' :: natDigits color ++ ['m']) ++ text ++ strL "\x1B[0m"
  else text

def _ANSI_GREEN : Nat := 32
def _ANSI_RED : Nat := 31

/-- The final status line composed by `Spinner.stop(reason)`. -/
def stopMessage (sp : SpinnerObj) (r : Reason) : List Char :=
  let msg := sp.message ++ ['.']
  match r with
  | .done => _wrap_color sp ['✔'] _ANSI_GREEN ++ strL " DONE " ++ msg
  | .cancel => strL "! CANCELED " ++ msg
  | .fail => _wrap_color sp ['✘'] _ANSI_RED ++ strL " FAILED " ++ msg

/-- `Spinner.start()`: register, then post the principal message
followed by `"..."`. -/
def spinnerStart (g : GlobalOutput) (sp : SpinnerObj) : GlobalOutput :=
  postEvent (register_spinner g sp) (.stdout (sp.message ++ strL "..."))

/-- `Spinner.stop(reason)`: compose the final status line and
deregister. -/
def spinnerStop (g : GlobalOutput) (sp : SpinnerObj) (r : Reason) :
    GlobalOutput × Bool :=
  deregister_spinner g sp (stopMessage sp r)

/-- The exception class observed by `Spinner.__exit__`. -/
inductive ExcType where
  | keyboardInterrupt : ExcType
  | otherError : ExcType
deriving DecidableEq

/-- The reason `Spinner.__exit__` passes to `stop`. -/
def exitReason : Option ExcType → Reason
  | none => .done
  | some .keyboardInterrupt => .cancel
  | some .otherError => .fail

/-- `Spinner.__exit__`: call `stop` with the reason derived from the
exception; the method returns `None` (falsy), so the exception is
never suppressed — the third component records suppression. -/
def spinnerExit (g : GlobalOutput) (sp : SpinnerObj) (exc : Option ExcType) :
    GlobalOutput × Bool × Bool :=
  let r := spinnerStop g sp (exitReason exc)
  (r.1, r.2, false)


/-! ## `ProgressSpinner.update` and Python float arithmetic

`int(self.current/total*100)` uses IEEE binary64 arithmetic: one
correctly rounded division, one correctly rounded multiplication by the
exact constant 100, then truncation toward zero.  A double is modelled
as a mantissa/exponent pair `(m, e)` with value `m * 2^e`; rounding is
round-to-nearest, ties to even, computed with exact natural-number
arithmetic (valid in the binary64 normal range, which covers every
value arising here). -/

/-- Round-to-nearest, ties-to-even integer division of naturals. -/
def rheDivN (N D : Nat) : Nat :=
  let q := N / D
  let r := N % D
  if 2 * r < D then q
  else if D < 2 * r then q + 1
  else if q % 2 = 0 then q else q + 1

/-- Fuel-driven binary logarithm (floor of log2) of a positive natural. -/
def natLog2F : Nat → Nat → Nat
  | 0, _ => 0
  | fuel + 1, n => if n ≤ 1 then 0 else natLog2F fuel (n / 2) + 1

def natLog2 (n : Nat) : Nat := natLog2F n n

example : natLog2 1 = 0 := by decide
example : natLog2 100 = 6 := by decide

/-- Correctly rounded binary64 quotient of two positive naturals, as a
mantissa/exponent pair: first the binade `k` of `a/d` is located, then
the quotient is scaled into `[2^52, 2^53)` and rounded to nearest, ties
to even. -/
def divToDbl (a d : Nat) : Nat × Int :=
  let k0 : Int := (natLog2 a : Int) - (natLog2 d : Int)
  -- whether 2^k ≤ a/d, by cross-multiplying with nonnegative shifts
  let ge2k : Int → Bool := fun k => d * 2 ^ k.toNat ≤ a * 2 ^ (-k).toNat
  let k := if ge2k (k0 + 1) then k0 + 1 else if ge2k k0 then k0 else k0 - 1
  let e := k - 52
  (rheDivN (a * 2 ^ (-e).toNat) (d * 2 ^ e.toNat), e)

/-- Correctly rounded binary64 product of the double `m * 2^e` with the
exact constant 100: the exact integer product of the mantissa is
rounded back to 53 significant bits. -/
def mul100Dbl (m : Nat) (e : Int) : Nat × Int :=
  if m = 0 then (0, 0)
  else
    let p := m * 100
    let b := natLog2 p
    if b ≤ 52 then (p, e)
    else (rheDivN p (2 ^ (b - 52)), e + (b - 52 : Nat))

/-- Truncation of a nonnegative double toward zero. -/
def dblTrunc (m : Nat) (e : Int) : Nat :=
  if 0 ≤ e then m * 2 ^ e.toNat else m / 2 ^ (-e).toNat

/-- `int(current/total*100)` under binary64 float semantics. -/
def pyPercent (current total : ℤ) : ℤ :=
  if total = 0 then 0
  else
    let a := current.natAbs
    let d := total.natAbs
    if a = 0 then 0
    else
      let q1 := divToDbl a d
      let q2 := mul100Dbl q1.1 q1.2
      let mag : ℤ := (dblTrunc q2.1 q2.2 : ℤ)
      if (current < 0) = (total < 0) then mag else -mag

example : pyPercent 29 100 = 28 := by decide
example : pyPercent 57 100 = 56 := by decide
example : pyPercent 58 100 = 57 := by decide
example : pyPercent 1 100 = 1 := by decide
example : pyPercent 30 100 = 30 := by decide
example : pyPercent 99 100 = 99 := by decide
example : pyPercent 100 100 = 100 := by decide
example : pyPercent 1 3 = 33 := by decide
example : pyPercent 2 3 = 66 := by decide

/-- Decimal digits of an integer. -/
def intDigits (z : ℤ) : List Char :=
  if z < 0 then '-' :: natDigits z.natAbs else natDigits z.natAbs

/-- Left-pad to a given width (Python `'{:>3}'.format`). -/
def padLeft (w : Nat) (c : Char) (l : List Char) : List Char :=
  List.replicate (w - l.length) c ++ l

/-- The message built by `ProgressSpinner.update` for the accumulated
count: with a non-zero `total` a percentage prefix over the principal
message, otherwise the principal message unchanged. -/
def progressMessage (message : List Char) (current : ℤ) (total : Option ℤ) :
    List Char :=
  match total with
  | some t =>
    if t ≠ 0 then
      strL "[" ++ padLeft 3 ' ' (intDigits (pyPercent current t)) ++ strL "%] " ++ message
    else message
  | none => message

/-- `ProgressSpinner.update(count, total)`: accumulate the running
count, then display the (possibly percentage-prefixed) message followed
by `"..."`.  Returns the new accumulated count and the displayed
message. -/
def progressUpdate (message : List Char) (current count : ℤ)
    (total : Option ℤ) : ℤ × List Char :=
  let cur := current + count
  (cur, progressMessage message cur total ++ strL "...")

example :
    (progressUpdate (strL "Downloading MNIST") 28 1 (some 100)).2
      = strL "[ 28%] Downloading MNIST..." := by decide
example :
    (progressUpdate (strL "Downloading MNIST") 0 0 (some 100)).2
      = strL "[  0%] Downloading MNIST..." := by decide
example :
    (progressUpdate (strL "Working") 3 2 none).2 = strL "Working..." := by decide

/-- Starting, recursively nesting, and then stopping one spinner with
reason `done`, innermost first: `nestedRun g [s1, s2, ...]` starts `s1`,
runs the rest nested inside it, then stops `s1`.  The boolean records
that every deregistration assert succeeded. -/
def nestedRun : GlobalOutput → List SpinnerObj → GlobalOutput × Bool
  | g, [] => (g, true)
  | g, sp :: rest =>
    let r := nestedRun (spinnerStart g sp) rest
    let r2 := spinnerStop r.1 sp .done
    (r2.1, r.2 && r2.2)


/-! ## Concrete scenario objects (from the spec's scenarios and the
source's demo block) -/

def demoOuter : SpinnerObj :=
  { id := 0, message := strL "Preparing samples",
    currentMessage := strL "Preparing samples", withColor := false }

def demoInner : SpinnerObj :=
  { id := 1, message := strL "Loading batch",
    currentMessage := strL "Loading batch", withColor := false }

def trainingSpinner : SpinnerObj :=
  { id := 2, message := strL "Training",
    currentMessage := strL "Training", withColor := true }

/-- A registry state holding exactly one registered spinner. -/
def gEx : GlobalOutput :=
  { spinnerThread := none, spinners := [demoOuter],
    sysStdout := .real, sysStderr := .real }

/-- The nested-spinner registry state: outer started, then inner. -/
def c2State : GlobalOutput := spinnerStart (spinnerStart initGlobal demoOuter) demoInner

/-- The worker handle held by `c2State`. -/
def c2Handle : WorkerHandle :=
  { state := initWorker,
    pending := [Event.stdout (strL "Preparing samples..."),
                Event.stdout (strL "Loading batch...")] }

example : c2State.spinnerThread = some c2Handle := by decide
example : c2State.spinners = [demoOuter, demoInner] := by decide

/-- Whether a list of integers is monotonically non-decreasing. -/
def isMonotone : List ℤ → Bool
  | [] => true
  | [_] => true
  | a :: b :: rest => (a ≤ b) && isMonotone (b :: rest)

/-! ## Helper lemmas -/

theorem dropWhile_length_le (p : α → Bool) (l : List α) :
    (l.dropWhile p).length ≤ l.length := by
  induction l with
  | nil => simp [List.dropWhile]
  | cons c l ih =>
    by_cases h : p c
    · simp only [List.dropWhile, h, List.length_cons]
      omega
    · simp [List.dropWhile, h]

theorem dropWhile_eq_self_of_length (p : α → Bool) (l : List α)
    (h : (l.dropWhile p).length = l.length) : l.dropWhile p = l := by
  cases l with
  | nil => rfl
  | cons c l =>
    by_cases hc : p c
    · exfalso
      have := dropWhile_length_le p l
      simp only [List.dropWhile, hc, List.length_cons] at h
      omega
    · simp [List.dropWhile, hc]

/-- A string unchanged by `strip()` is unchanged by the leading
`dropWhile` alone. -/
theorem dropWhile_eq_self_of_pyStrip (l : List Char) (h : pyStrip l = l) :
    l.dropWhile isPySpace = l := by
  apply dropWhile_eq_self_of_length
  have h1 : (pyStrip l).length ≤ (l.dropWhile isPySpace).length := by
    unfold pyStrip
    rw [List.length_reverse]
    calc ((l.dropWhile isPySpace).reverse.dropWhile isPySpace).length
        ≤ (l.dropWhile isPySpace).reverse.length := dropWhile_length_le _ _
      _ = (l.dropWhile isPySpace).length := List.length_reverse _
  have h2 := dropWhile_length_le isPySpace l
  rw [h] at h1
  omega

/-- Prepending a carriage return does not change the stripped form of
an already-stripped string. -/
theorem pyStrip_cr (body : List Char) (h : pyStrip body = body) :
    pyStrip ('\x0D' :: body) = body := by
  have hsp : isPySpace '\x0D' = true := by decide
  have hd : List.dropWhile isPySpace ('\x0D' :: body) = List.dropWhile isPySpace body := by
    simp [List.dropWhile, hsp]
  have hb := dropWhile_eq_self_of_pyStrip body h
  calc pyStrip ('\x0D' :: body)
      = ((List.dropWhile isPySpace ('\x0D' :: body)).reverse.dropWhile isPySpace).reverse := rfl
    _ = ((List.dropWhile isPySpace body).reverse.dropWhile isPySpace).reverse := by rw [hd]
    _ = ((body.dropWhile isPySpace).reverse.dropWhile isPySpace).reverse := rfl
    _ = pyStrip body := rfl
    _ = body := h

theorem stripAnsiRun_go_spaces (k : Nat) :
    stripAnsiRun .go (List.replicate k ' ') = List.replicate k ' ' := by
  induction k with
  | zero => rfl
  | succ k ih => simpa [List.replicate, stripAnsiRun] using ih

theorem stripAnsiRun_esc_spaces (k : Nat) :
    stripAnsiRun .esc (List.replicate k ' ') = '\x1B' :: List.replicate k ' ' := by
  cases k with
  | zero => rfl
  | succ k => simp [List.replicate, stripAnsiRun, stripAnsiRun_go_spaces]

theorem stripAnsiRun_csi_spaces (k : Nat) : ∀ (ph : Bool) (buf : List Char),
    stripAnsiRun (.csi ph buf) (List.replicate k ' ')
      = '\x1B' :: '[' :: buf.reverse ++ List.replicate k ' ' := by
  induction k with
  | zero => intro ph buf; simp [List.replicate, stripAnsiRun]
  | succ k ih =>
    intro ph buf
    have h1 : isAnsiParam ' ' = false := by decide
    have h2 : isAnsiInterm ' ' = true := by decide
    simp [List.replicate, stripAnsiRun, h1, h2, ih]

/-- Appending trailing padding spaces commutes with ANSI-escape
removal: a space can extend an unfinished escape sequence only as an
intermediate byte, and the sequence then still lacks a final byte, so
the spaces are always replayed verbatim. -/
theorem stripAnsiRun_append_spaces (l : List Char) : ∀ (mode : AnsiMode) (k : Nat),
    stripAnsiRun mode (l ++ List.replicate k ' ')
      = stripAnsiRun mode l ++ List.replicate k ' ' := by
  induction l with
  | nil =>
    intro mode k
    cases mode with
    | go => simpa using stripAnsiRun_go_spaces k
    | esc => simpa [stripAnsiRun] using stripAnsiRun_esc_spaces k
    | csi ph buf => simpa [stripAnsiRun] using stripAnsiRun_csi_spaces k ph buf
  | cons c l ih =>
    intro mode k
    cases mode with
    | go =>
      by_cases hc : c = '\x1B' <;> simp [stripAnsiRun, hc, ih]
    | esc =>
      by_cases hb : c = '[' <;> by_cases hc : c = '\x1B' <;>
        simp [stripAnsiRun, hb, hc, ih]
    | csi ph buf =>
      by_cases h1 : (!ph && isAnsiParam c) = true
      · simp [stripAnsiRun, h1, ih]
      · by_cases h2 : isAnsiInterm c = true
        · simp [stripAnsiRun, h1, h2, ih]
        · by_cases h3 : isAnsiFinal c = true
          · simp [stripAnsiRun, h1, h2, h3, ih]
          · by_cases hc : c = '\x1B'
            · subst hc
              simp [stripAnsiRun, h1, h2, h3, ih]
            · simp [stripAnsiRun, h1, h2, h3, hc, ih]

theorem stripAnsi_append_spaces (l : List Char) (k : Nat) :
    stripAnsi (l ++ List.replicate k ' ') = stripAnsi l ++ List.replicate k ' ' :=
  stripAnsiRun_append_spaces l .go k

theorem stripAnsi_cr (l : List Char) :
    stripAnsi ('\x0D' :: l) = '\x0D' :: stripAnsi l := by
  simp [stripAnsi, stripAnsiRun]

theorem processEvents_append (s : WorkerState) (es es' : List Event) :
    processEvents s (es ++ es') = processEvents (processEvents s es) es' :=
  List.foldl_append _ _ _ _

/-- A final non-blank stdout event determines the worker's current
message, provided the loop has not already stopped. -/
theorem msg_after_final_stdout (s : WorkerState) (es : List Event) (p : List Char)
    (hs : (processEvents s es).stopped = false) (hp : pyStrip p ≠ []) :
    (processEvents s (es ++ [.stdout p])).msg = pyStrip p := by
  rw [processEvents_append]
  set t := processEvents s es
  show (workerStep t (.stdout p)).msg = pyStrip p
  rw [workerStep]
  simp only [hs, if_false, Bool.false_eq_true]
  have : (pyStrip p).isEmpty = false := by
    cases hh : pyStrip p with
    | nil => exact absurd hh hp
    | cons a b => rfl
  simp [this]

theorem getLast?_append_singleton (l : List α) (a : α) :
    (l ++ [a]).getLast? = some a := by
  induction l with
  | nil => rfl
  | cons c l ih => rw [List.cons_append, List.getLast?_cons, ih]; rfl

theorem dropLast_append_singleton (l : List α) (a : α) :
    (l ++ [a]).dropLast = l := by
  simp

/-- `Spinner.start` always leaves a live worker in place. -/
theorem spinnerStart_isSome (g : GlobalOutput) (sp : SpinnerObj) :
    (spinnerStart g sp).spinnerThread.isSome = true := by
  unfold spinnerStart postEvent register_spinner
  cases h : g.spinnerThread <;> simp [h]

/-- `Spinner.start` pushes the spinner on the stack. -/
theorem spinnerStart_spinners (g : GlobalOutput) (sp : SpinnerObj) :
    (spinnerStart g sp).spinners = g.spinners ++ [sp] := by
  unfold spinnerStart postEvent register_spinner
  cases h : g.spinnerThread <;> simp [h]

theorem postEvent_spinners (g : GlobalOutput) (e : Event) :
    (postEvent g e).spinners = g.spinners := by
  unfold postEvent
  cases h : g.spinnerThread <;> simp [h]

theorem postEvent_isSome (g : GlobalOutput) (e : Event) :
    (postEvent g e).spinnerThread.isSome = g.spinnerThread.isSome := by
  unfold postEvent
  cases h : g.spinnerThread <;> simp [h]

/-- Deregistering with a live worker and a non-emptying stack keeps
the worker and reposts the final message; with an emptying stack it
removes the worker. -/
theorem nestedRun_inner (sps : List SpinnerObj) : ∀ (g : GlobalOutput),
    g.spinnerThread.isSome = true → g.spinners ≠ [] →
    (nestedRun g sps).2 = true ∧ (nestedRun g sps).1.spinners = g.spinners ∧
      (nestedRun g sps).1.spinnerThread.isSome = true := by
  induction sps with
  | nil => intro g _ _; exact ⟨rfl, rfl, by assumption⟩
  | cons sp rest ih =>
    intro g hw hs
    have h1 : (spinnerStart g sp).spinnerThread.isSome = true := spinnerStart_isSome g sp
    have h2 : (spinnerStart g sp).spinners = g.spinners ++ [sp] := spinnerStart_spinners g sp
    have h3 : (spinnerStart g sp).spinners ≠ [] := by
      rw [h2]; exact List.append_ne_nil_of_right_ne_nil _ (by simp)
    obtain ⟨hok, hsp, hsome⟩ := ih (spinnerStart g sp) h1 h3
    set g2 := (nestedRun (spinnerStart g sp) rest).1 with hg2
    have hlast : g2.spinners.getLast? = some sp := by
      rw [hsp, h2]; exact getLast?_append_singleton _ _
    have hdrop : g2.spinners.dropLast = g.spinners := by
      rw [hsp, h2]; exact dropLast_append_singleton _ _
    have hne : g2.spinners.dropLast.isEmpty = false := by
      rw [hdrop]
      cases hcase : g.spinners with
      | nil => exact absurd hcase hs
      | cons a b => rfl
    have hstop : spinnerStop g2 sp .done
        = (postEvent { g2 with spinners := g2.spinners.dropLast }
            (.stdout (stopMessage sp .done)), true) := by
      unfold spinnerStop deregister_spinner
      rw [hlast]
      simp [hne]
    constructor
    · show ((nestedRun (spinnerStart g sp) rest).2 && (spinnerStop g2 sp .done).2) = true
      rw [hok, hstop]
      rfl
    constructor
    · show (spinnerStop g2 sp .done).1.spinners = g.spinners
      rw [hstop]
      simp only [postEvent_spinners]
      exact hdrop
    · show (spinnerStop g2 sp .done).1.spinnerThread.isSome = true
      rw [hstop]
      simp only [postEvent_isSome]
      exact hsome

theorem processEvents_cons (s : WorkerState) (e : Event) (es : List Event) :
    processEvents s (e :: es) = processEvents (workerStep s e) es := rfl

/-- Only a `stdout` event can switch the queue timeout on. -/
theorem workerStep_hasTimeout (s : WorkerState) (e : Event)
    (he : isStdoutEv e = false) : (workerStep s e).hasTimeout = s.hasTimeout := by
  cases e with
  | stdout p => simp [isStdoutEv] at he
  | stderr p =>
    unfold workerStep
    by_cases hs : s.stopped
    · simp [hs]
    · simp only [hs, Bool.false_eq_true, if_false]
      split <;> rfl
  | stop p =>
    unfold workerStep
    by_cases hs : s.stopped <;> simp [hs]
  | tick =>
    unfold workerStep
    by_cases hs : s.stopped <;> simp [hs]

/-- While no `stdout` event has arrived, the timeout stays `None`, so a
valid trace contains no `tick`. -/
theorem no_tick_of_no_stdout (es : List Event) : ∀ (s : WorkerState),
    s.hasTimeout = false →
    es.all (fun e => !(isStdoutEv e)) = true →
    validFrom s es = true →
    es.all (fun e => !(isTickEv e)) = true ∧ (processEvents s es).hasTimeout = false := by
  induction es with
  | nil => intro s h _ _; exact ⟨rfl, h⟩
  | cons e es ih =>
    intro s hT hNo hV
    rw [List.all_cons, Bool.and_eq_true] at hNo
    obtain ⟨hNoE, hNoRest⟩ := hNo
    cases e with
    | stdout p => simp [isStdoutEv] at hNoE
    | tick =>
      have hsplit : validFrom s (Event.tick :: es)
          = (s.hasTimeout && validFrom (workerStep s .tick) es) := rfl
      rw [hsplit, Bool.and_eq_true, hT] at hV
      exact absurd hV.1 (by simp)
    | stderr p =>
      have hsplit : validFrom s (Event.stderr p :: es)
          = (true && validFrom (workerStep s (.stderr p)) es) := rfl
      rw [hsplit, Bool.true_and] at hV
      have hT' : (workerStep s (.stderr p)).hasTimeout = false := by
        rw [workerStep_hasTimeout s (.stderr p) rfl]; exact hT
      obtain ⟨ha, hb⟩ := ih (workerStep s (.stderr p)) hT' hNoRest hV
      exact ⟨by rw [List.all_cons, ha]; rfl, by rw [processEvents_cons]; exact hb⟩
    | stop p =>
      have hsplit : validFrom s (Event.stop p :: es)
          = (true && validFrom (workerStep s (.stop p)) es) := rfl
      rw [hsplit, Bool.true_and] at hV
      have hT' : (workerStep s (.stop p)).hasTimeout = false := by
        rw [workerStep_hasTimeout s (.stop p) rfl]; exact hT
      obtain ⟨ha, hb⟩ := ih (workerStep s (.stop p)) hT' hNoRest hV
      exact ⟨by rw [List.all_cons, ha]; rfl, by rw [processEvents_cons]; exact hb⟩

theorem postEvent_sysStdout (g : GlobalOutput) (e : Event) :
    (postEvent g e).sysStdout = g.sysStdout := by
  unfold postEvent; cases h : g.spinnerThread <;> simp [h]

theorem postEvent_sysStderr (g : GlobalOutput) (e : Event) :
    (postEvent g e).sysStderr = g.sysStderr := by
  unfold postEvent; cases h : g.spinnerThread <;> simp [h]

theorem drainWorker_spinners (g : GlobalOutput) :
    (drainWorker g).spinners = g.spinners := by
  unfold drainWorker; cases h : g.spinnerThread <;> simp [h]

theorem drainWorker_isSome (g : GlobalOutput) :
    (drainWorker g).spinnerThread.isSome = g.spinnerThread.isSome := by
  unfold drainWorker; cases h : g.spinnerThread <;> simp [h]

theorem drainWorker_sysStdout (g : GlobalOutput) :
    (drainWorker g).sysStdout = g.sysStdout := by
  unfold drainWorker; cases h : g.spinnerThread <;> simp [h]

theorem drainWorker_sysStderr (g : GlobalOutput) :
    (drainWorker g).sysStderr = g.sysStderr := by
  unfold drainWorker; cases h : g.spinnerThread <;> simp [h]


/-! ## Claims -/

/-- C1: the spec says a multi-line Stderr payload is split into lines
and each line is written once, on its own terminated line.  The code
computes `line = line.strip()` for each split line but then writes the
whole payload `text` once per line, so for the two-line payload below
both stderr writes contain the entire payload (the first write embeds a
newline inside the padded line, and the second write is the whole
payload rather than the second line).  This evaluates the worker at the
failing input. -/
theorem C1_failing_eval :
    (processEvents initWorker
        [.stdout (strL "Working"),
         .stderr (strL "error line 1\nerror line 2")]).stderrOut
      = [strL "\rerror line 1\nerror line 2\n",
         strL "error line 1\nerror line 2\n"]
    ∧ strL "error line 1\nerror line 2\n" ≠ strL "error line 2\n" := by decide

/-- C3 (counterexample): an initial Stderr event makes the worker write
the empty animated line `"\r⠇ "` to the real stdout although no Stdout
event has arrived yet — refuting "nothing is ever written to the real
stdout ... for every possible event sequence (including an initial
Stderr event)". -/
theorem C3_counterexample :
    validFrom initWorker [.stderr (strL "oops")] = true
    ∧ [Event.stderr (strL "oops")].all (fun e => !(isStdoutEv e)) = true
    ∧ (processEvents initWorker [.stderr (strL "oops")]).stdoutOut = [strL "\r⠇ "]
    ∧ (processEvents initWorker [.stderr (strL "oops")]).stdoutOut ≠ [] := by decide

/-- C3 (amended): before the first Stdout event the worker blocks with
no timeout, so a valid trace without Stdout events contains no
timeout tick — and if additionally no Stderr and no Stop event occurs,
nothing at all is written to the real stdout.  (An initial Stderr
event, however, does write an empty animated line.) -/
theorem C3_theorem : ∀ (es : List Event),
    validFrom initWorker es = true →
    es.all (fun e => !(isStdoutEv e)) = true →
    (es.all (fun e => !(isTickEv e)) = true
      ∧ (es.all (fun e => !(isStderrEv e) && !(isStopEv e)) = true →
          (processEvents initWorker es).stdoutOut = [])) := by
  intro es hV hNo
  have h1 := no_tick_of_no_stdout es initWorker rfl hNo hV
  refine ⟨h1.1, ?_⟩
  intro hrest
  have hnil : es = [] := by
    cases es with
    | nil => rfl
    | cons e es' =>
      rw [List.all_cons, Bool.and_eq_true] at hNo hrest
      have htick := h1.1
      rw [List.all_cons, Bool.and_eq_true] at htick
      cases e with
      | stdout p => simp [isStdoutEv] at hNo
      | stderr p => simp [isStderrEv] at hrest
      | stop p => simp [isStopEv] at hrest
      | tick => simp [isTickEv] at htick
  rw [hnil]
  rfl

/-- C3 (witness): the amended theorem applied to the one-event trace
consisting of a single Stderr event. -/
theorem C3_witness :
    [Event.stderr (strL "x")].all (fun e => !(isTickEv e)) = true
    ∧ ([Event.stderr (strL "x")].all (fun e => !(isStderrEv e) && !(isStopEv e)) = true →
        (processEvents initWorker [Event.stderr (strL "x")]).stdoutOut = []) :=
  C3_theorem [Event.stderr (strL "x")] (by decide) (by decide)

/-- C5: `_text_ljust` pads with spaces exactly when the
escape-stripped visible length of the new text is shorter than the
previously rendered visible length; consequently a spinner render
`"\r" + body` (with `body` already whitespace-stripped, as every
rendered `msg` is) always covers at least `prev_len` visible cells, so
no trailing characters of a longer previous line survive the
overwrite. -/
theorem C5_theorem : ∀ (text body : List Char) (p : Nat),
    (_text_ljust text p =
      if _text_len text < p then text ++ List.replicate (p - _text_len text) ' '
      else text)
    ∧ (pyStrip body = body →
        p + 1 ≤ (stripAnsi (_text_ljust ('\x0D' :: body) p)).length) := by
  intro text body p
  constructor
  · rfl
  · intro hb
    have hlen : _text_len ('\x0D' :: body) = (stripAnsi body).length := by
      unfold _text_len
      rw [pyStrip_cr body hb]
    by_cases h : _text_len ('\x0D' :: body) < p
    · have : _text_ljust ('\x0D' :: body) p
          = ('\x0D' :: body) ++ List.replicate (p - _text_len ('\x0D' :: body)) ' ' := by
        unfold _text_ljust
        simp [h]
      rw [this, stripAnsi_append_spaces, stripAnsi_cr]
      rw [hlen] at h ⊢
      simp only [List.length_append, List.length_cons, List.length_replicate]
      omega
    · have : _text_ljust ('\x0D' :: body) p = '\x0D' :: body := by
        unfold _text_ljust
        simp [h]
      rw [this, stripAnsi_cr]
      rw [hlen] at h
      simp only [List.length_cons]
      omega

/-- C5 (witness): the padding rule and the coverage bound evaluated at
a concrete short message after a longer one. -/
theorem C5_witness :
    (_text_ljust (strL "abc") 5 =
      if _text_len (strL "abc") < 5 then
        strL "abc" ++ List.replicate (5 - _text_len (strL "abc")) ' '
      else strL "abc")
    ∧ (5 + 1 ≤ (stripAnsi (_text_ljust ('\x0D' :: strL "⠇ hi") 5)).length) :=
  ⟨(C5_theorem (strL "abc") (strL "⠇ hi") 5).1,
   (C5_theorem (strL "abc") (strL "⠇ hi") 5).2 (by decide)⟩

/-- C6: `stop` accepts exactly the three terminal reasons (spelled
`'done'`, `'cancel'`, `'fail'` in the source), and composes the final
status line as glyph + status word + principal message: for the
color-capable spinner "Training" stopped through an uncaught error
(reason `fail` from the scope exit), the final line is the red-wrapped
✘, the word FAILED, and ends with "Training."; the done and cancel
compositions are included for completeness. -/
theorem C6_theorem :
    (∀ r : Reason, r = .done ∨ r = .cancel ∨ r = .fail)
    ∧ exitReason (some .otherError) = .fail
    ∧ stopMessage trainingSpinner .fail = strL "\x1B[31m✘\x1B[0m FAILED Training."
    ∧ (stripAnsi (stopMessage trainingSpinner .fail)).take 1 = ['✘']
    ∧ (stopMessage trainingSpinner .fail).drop
        ((stopMessage trainingSpinner .fail).length - 9) = strL "Training."
    ∧ stopMessage trainingSpinner .done = strL "\x1B[32m✔\x1B[0m DONE Training."
    ∧ stopMessage trainingSpinner .cancel = strL "! CANCELED Training." := by
  constructor
  · intro r
    cases r
    · exact Or.inl rfl
    · exact Or.inr (Or.inl rfl)
    · exact Or.inr (Or.inr rfl)
  · decide

/-- C7 (counterexample): at cumulative count 29 with total 100 the
percentage prefix is `[ 28%]`, not `[ 29%]`: binary64 arithmetic gives
`29/100*100 = 28.999999999999996`, which `int()` truncates to 28 — so
the claimed exact sequence `0%,1%,...,99%` is wrong at 29. -/
theorem C7_counterexample :
    pyPercent 29 100 = 28
    ∧ progressMessage (strL "Downloading MNIST") 29 (some 100)
        = strL "[ 28%] Downloading MNIST"
    ∧ progressMessage (strL "Downloading MNIST") 29 (some 100)
        ≠ strL "[ 29%] Downloading MNIST" := by decide


/-- C7 (amended): `update` accumulates the running count; without a
total (or with total 0) it plainly redisplays the principal message;
with a non-zero total it prefixes the float-computed truncated
percentage of the cumulative count (which can fall one below the exact
value, e.g. 28% at 29/100); over the cumulative counts 0..100 with
total 100 the prefixes are monotonically non-decreasing from 0% to
100%. -/
theorem C7_theorem :
    (∀ (m : List Char) (cur cnt : ℤ) (tot : Option ℤ),
      (progressUpdate m cur cnt tot).1 = cur + cnt)
    ∧ (∀ (m : List Char) (cur cnt : ℤ),
      (progressUpdate m cur cnt none).2 = m ++ strL "...")
    ∧ (∀ (m : List Char) (cur cnt : ℤ),
      (progressUpdate m cur cnt (some 0)).2 = m ++ strL "...")
    ∧ (∀ (m : List Char) (cur cnt t : ℤ), t ≠ 0 →
      (progressUpdate m cur cnt (some t)).2
        = strL "[" ++ padLeft 3 ' ' (intDigits (pyPercent (cur + cnt) t))
          ++ strL "%] " ++ m ++ strL "...")
    ∧ isMonotone ((List.range 101).map fun c => pyPercent (Int.ofNat c) 100) = true
    ∧ pyPercent 0 100 = 0 ∧ pyPercent 100 100 = 100 := by
  refine ⟨fun m cur cnt tot => rfl, fun m cur cnt => rfl, fun m cur cnt => rfl,
    ?_, by decide, by decide, by decide⟩
  intro m cur cnt t ht
  unfold progressUpdate progressMessage
  simp [ht, List.append_assoc]

/-- C7 (witness): the percentage branch of the amended theorem applied
at cumulative count 29 over total 100. -/
theorem C7_witness :
    (progressUpdate (strL "Downloading MNIST") 0 29 (some 100)).2
      = strL "[" ++ padLeft 3 ' ' (intDigits (pyPercent (0 + 29) 100))
        ++ strL "%] " ++ strL "Downloading MNIST" ++ strL "..." :=
  C7_theorem.2.2.2.1 (strL "Downloading MNIST") 0 29 100 (by decide)

/-- C9: the scope exit maps a keyboard interrupt to reason `cancel`,
any other exception to `fail`, and a normal exit to `done`; it always
calls `stop` with that reason and returns falsy, so the original
exception is never suppressed. -/
theorem C9_theorem :
    exitReason none = .done
    ∧ exitReason (some .keyboardInterrupt) = .cancel
    ∧ exitReason (some .otherError) = .fail
    ∧ (∀ (g : GlobalOutput) (sp : SpinnerObj) (exc : Option ExcType),
        (spinnerExit g sp exc).2.2 = false
        ∧ (spinnerExit g sp exc).1 = (spinnerStop g sp (exitReason exc)).1
        ∧ (spinnerExit g sp exc).2.1 = (spinnerStop g sp (exitReason exc)).2) :=
  ⟨rfl, rfl, rfl, fun _ _ _ => ⟨rfl, rfl, rfl⟩⟩

/-- C10: `deregister_spinner` pops the stack before comparing, so when
the popped top is not the deregistered spinner the assert fails only
after the mutation: the result is the popped registry with a `false`
assert flag, and the stack is one shorter than before. -/
theorem C10_theorem : ∀ (g : GlobalOutput) (sp : SpinnerObj) (msg : List Char)
    (top : SpinnerObj), g.spinners.getLast? = some top → top.id ≠ sp.id →
    deregister_spinner g sp msg = ({ g with spinners := g.spinners.dropLast }, false)
    ∧ (deregister_spinner g sp msg).1.spinners.length + 1 = g.spinners.length := by
  intro g sp msg top hlast hne
  have h1 : deregister_spinner g sp msg
      = ({ g with spinners := g.spinners.dropLast }, false) := by
    unfold deregister_spinner
    rw [hlast]
    simp [hne]
  refine ⟨h1, ?_⟩
  rw [h1]
  have hne' : g.spinners ≠ [] := by
    intro h
    rw [h] at hlast
    exact absurd hlast (by simp)
  have hpos : 0 < g.spinners.length := List.length_pos.mpr hne'
  simp only [List.length_dropLast]
  omega

/-- C10 (witness): deregistering the wrong spinner from a one-element
stack pops it anyway and reports the assert failure. -/
theorem C10_witness :
    deregister_spinner gEx demoInner (strL "m")
      = ({ gEx with spinners := gEx.spinners.dropLast }, false)
    ∧ (deregister_spinner gEx demoInner (strL "m")).1.spinners.length + 1
        = gEx.spinners.length :=
  C10_theorem gEx demoInner (strL "m") demoOuter (by decide) (by decide)

/-- C2 (counterexample): in the nested scenario (outer "Preparing
samples", inner "Loading batch"), after the inner spinner stops with
reason `done` and the worker consumes the reposted event, the active
(current) message is the inner spinner's final status line
"✔ DONE Loading batch." — not the next-outer spinner's current message
"Preparing samples" (nor its posted form "Preparing samples..."), so
the outer message does not reappear. -/
theorem C2_counterexample :
    ((drainWorker (spinnerStop (drainWorker c2State) demoInner .done).1).spinnerThread.map
        fun wk => wk.state.msg)
      = some (strL "✔ DONE Loading batch.")
    ∧ strL "✔ DONE Loading batch." ≠ demoOuter.currentMessage
    ∧ strL "✔ DONE Loading batch." ≠ demoOuter.currentMessage ++ strL "..." := by decide

/-- C2 (amended): deregistering a nested (non-last) spinner keeps the
shared worker (with the same loop state), posts the final message as a
new Stdout event, and pops the stack; once the worker consumes its
queue, that final message — not the next-outer spinner's current
message — becomes the active line. -/
theorem C2_theorem : ∀ (g : GlobalOutput) (wk : WorkerHandle) (sp top : SpinnerObj)
    (msg : List Char),
    g.spinnerThread = some wk →
    g.spinners.getLast? = some top → top.id = sp.id →
    g.spinners.dropLast ≠ [] →
    (processEvents wk.state wk.pending).stopped = false →
    pyStrip msg ≠ [] →
    ((deregister_spinner g sp msg).2 = true
      ∧ (deregister_spinner g sp msg).1.spinnerThread
          = some { state := wk.state, pending := wk.pending ++ [Event.stdout msg] }
      ∧ (deregister_spinner g sp msg).1.spinners = g.spinners.dropLast
      ∧ (processEvents wk.state (wk.pending ++ [Event.stdout msg])).msg = pyStrip msg) := by
  intro g wk sp top msg hwk hlast hid hne hstop hmsg
  have hempty : g.spinners.dropLast.isEmpty = false := by
    cases h : g.spinners.dropLast with
    | nil => exact absurd h hne
    | cons a b => rfl
  have hder : deregister_spinner g sp msg
      = (postEvent { g with spinners := g.spinners.dropLast } (.stdout msg), true) := by
    unfold deregister_spinner
    rw [hlast]
    simp [hid, hempty]
  refine ⟨by rw [hder], ?_, ?_, ?_⟩
  · rw [hder]
    show (postEvent { g with spinners := g.spinners.dropLast } (.stdout msg)).spinnerThread
      = some { state := wk.state, pending := wk.pending ++ [Event.stdout msg] }
    unfold postEvent
    simp only []
    rw [show ({ g with spinners := g.spinners.dropLast } : GlobalOutput).spinnerThread
        = some wk from hwk]
  · rw [hder, postEvent_spinners]
  · exact msg_after_final_stdout wk.state wk.pending msg hstop hmsg

/-- C2 (witness): the amended theorem applied to the concrete
nested-spinner state with the inner final message. -/
theorem C2_witness :
    ((deregister_spinner c2State demoInner (stopMessage demoInner .done)).2 = true
      ∧ (deregister_spinner c2State demoInner (stopMessage demoInner .done)).1.spinnerThread
          = some { state := c2Handle.state,
                   pending := c2Handle.pending
                     ++ [Event.stdout (stopMessage demoInner .done)] }
      ∧ (deregister_spinner c2State demoInner (stopMessage demoInner .done)).1.spinners
          = c2State.spinners.dropLast
      ∧ (processEvents c2Handle.state
            (c2Handle.pending ++ [Event.stdout (stopMessage demoInner .done)])).msg
          = pyStrip (stopMessage demoInner .done)) :=
  C2_theorem c2State c2Handle demoInner demoInner (stopMessage demoInner .done)
    (by decide) (by decide) (by decide) (by decide) (by decide) (by decide)

/-- C4: deregistering when the top of the stack is not the spinner (or
the stack is empty) fails the assert and never silently succeeds;
deregistering the top succeeds; and running any number of nested
spinners, stopping them innermost-first in LIFO order, succeeds
throughout and leaves the stack empty with no worker. -/
theorem C4_theorem :
    (∀ (g : GlobalOutput) (sp : SpinnerObj) (msg : List Char),
      (∀ top : SpinnerObj, g.spinners.getLast? = some top → top.id ≠ sp.id) →
      (deregister_spinner g sp msg).2 = false)
    ∧ (∀ (g : GlobalOutput) (sp : SpinnerObj) (msg : List Char) (top : SpinnerObj),
      g.spinners.getLast? = some top → top.id = sp.id →
      (deregister_spinner g sp msg).2 = true)
    ∧ (∀ sps : List SpinnerObj,
      (nestedRun initGlobal sps).2 = true
      ∧ (nestedRun initGlobal sps).1.spinners = []
      ∧ (nestedRun initGlobal sps).1.spinnerThread = none) := by
  refine ⟨?_, ?_, ?_⟩
  · intro g sp msg h
    unfold deregister_spinner
    cases hlast : g.spinners.getLast? with
    | none => rfl
    | some top => simp [h top hlast]
  · intro g sp msg top hlast hid
    unfold deregister_spinner
    rw [hlast]
    by_cases hempty : g.spinners.dropLast.isEmpty <;> simp [hid, hempty]
  · intro sps
    cases sps with
    | nil => exact ⟨rfl, rfl, rfl⟩
    | cons sp rest =>
      have h1 : (spinnerStart initGlobal sp).spinnerThread.isSome = true :=
        spinnerStart_isSome initGlobal sp
      have h2 : (spinnerStart initGlobal sp).spinners = [sp] := by
        rw [spinnerStart_spinners]
        rfl
      have h3 : (spinnerStart initGlobal sp).spinners ≠ [] := by
        rw [h2]; simp
      obtain ⟨hok, hsp, hsome⟩ := nestedRun_inner rest (spinnerStart initGlobal sp) h1 h3
      set g2 := (nestedRun (spinnerStart initGlobal sp) rest).1 with hg2
      have hlast : g2.spinners.getLast? = some sp := by
        rw [hsp, h2]; rfl
      have hdrop : g2.spinners.dropLast = [] := by
        rw [hsp, h2]; rfl
      have hstop1 : (spinnerStop g2 sp .done).2 = true := by
        unfold spinnerStop deregister_spinner
        rw [hlast]
        simp [hdrop]
      have hstop2 : (spinnerStop g2 sp .done).1.spinners = [] := by
        unfold spinnerStop deregister_spinner
        rw [hlast]
        simp [hdrop]
      have hstop3 : (spinnerStop g2 sp .done).1.spinnerThread = none := by
        unfold spinnerStop deregister_spinner
        rw [hlast]
        simp [hdrop]
      refine ⟨?_, hstop2, hstop3⟩
      show ((nestedRun (spinnerStart initGlobal sp) rest).2
          && (spinnerStop g2 sp .done).2) = true
      rw [hok, hstop1]
      rfl

/-- C4 (witness): the misuse path, the LIFO path, and a concrete
two-level nested run. -/
theorem C4_witness :
    (deregister_spinner gEx demoInner (strL "m")).2 = false
    ∧ (deregister_spinner gEx demoOuter (strL "m")).2 = true
    ∧ ((nestedRun initGlobal [demoOuter, demoInner]).2 = true
      ∧ (nestedRun initGlobal [demoOuter, demoInner]).1.spinners = []
      ∧ (nestedRun initGlobal [demoOuter, demoInner]).1.spinnerThread = none) :=
  ⟨C4_theorem.1 gEx demoInner (strL "m")
      (by
        intro top h
        have hg : gEx.spinners.getLast? = some demoOuter := by decide
        rw [hg] at h
        have htop : demoOuter = top := Option.some.inj h
        rw [← htop]
        decide),
   C4_theorem.2.1 gEx demoOuter (strL "m") demoOuter (by decide) rfl,
   C4_theorem.2.2 [demoOuter, demoInner]⟩

/-- Any successful `deregister_spinner` pops the stack and either
removes the worker and restores the streams (stack emptied) or keeps
everything else and posts the final message (stack still occupied). -/
theorem deregister_ok_char (g : GlobalOutput) (sp : SpinnerObj) (msg : List Char)
    (hok : (deregister_spinner g sp msg).2 = true) :
    g.spinners ≠ [] ∧
    ((g.spinners.dropLast = [] ∧
        (deregister_spinner g sp msg).1
          = ⟨none, g.spinners.dropLast, .real, .real⟩)
      ∨ (g.spinners.dropLast ≠ [] ∧
        (deregister_spinner g sp msg).1
          = postEvent ⟨g.spinnerThread, g.spinners.dropLast, g.sysStdout, g.sysStderr⟩
              (.stdout msg))) := by
  revert hok
  unfold deregister_spinner
  cases hlast : g.spinners.getLast? with
  | none => intro hok; exact absurd hok (by simp)
  | some top =>
    have hne : g.spinners ≠ [] := by
      intro h
      rw [h] at hlast
      exact absurd hlast (by simp)
    by_cases hid : top.id = sp.id
    · by_cases hempty : g.spinners.dropLast.isEmpty
      · have hdrop : g.spinners.dropLast = [] := by
          cases h : g.spinners.dropLast with
          | nil => rfl
          | cons a b => rw [h] at hempty; simp at hempty
        intro _
        refine ⟨hne, Or.inl ⟨hdrop, ?_⟩⟩
        simp [hid, hempty]
      · have hdrop : g.spinners.dropLast ≠ [] := by
          intro h
          rw [h] at hempty
          simp at hempty
        intro _
        refine ⟨hne, Or.inr ⟨hdrop, ?_⟩⟩
        simp [hid, hempty]
    · intro hok
      exact absurd hok (by simp [hid])

/-- C8: in every registry state reachable by completed operations, the
worker (an `Option`, hence at most one) exists iff the spinner stack is
non-empty, and likewise both process streams are intercepted iff the
stack is non-empty: the first registration creates the worker and swaps
the streams, and only the last deregistration removes them. -/
theorem C8_theorem : ∀ (g : GlobalOutput), Reachable g →
    ((g.spinnerThread.isSome = true ↔ g.spinners ≠ [])
      ∧ (g.sysStdout = .fake ↔ g.spinners ≠ [])
      ∧ (g.sysStderr = .fake ↔ g.spinners ≠ [])) := by
  intro g h
  induction h with
  | init => refine ⟨?_, ?_, ?_⟩ <;> simp [initGlobal]
  | register g sp _ ih =>
    unfold register_spinner
    cases hw : g.spinnerThread with
    | none => refine ⟨?_, ?_, ?_⟩ <;> simp [hw]
    | some wk =>
      have hne : g.spinners ≠ [] := ih.1.mp (by rw [hw]; rfl)
      refine ⟨?_, ?_, ?_⟩ <;> simp [hw]
      · exact ih.2.1.mpr hne
      · exact ih.2.2.mpr hne
  | deregister g sp msg _ hok ih =>
    obtain ⟨hne, hcase⟩ := deregister_ok_char g sp msg hok
    rcases hcase with ⟨hdrop, heq⟩ | ⟨hdrop, heq⟩
    · rw [heq]
      refine ⟨?_, ?_, ?_⟩ <;> simp [hdrop]
    · rw [heq]
      have hsome : g.spinnerThread.isSome = true := ih.1.mpr hne
      refine ⟨?_, ?_, ?_⟩
      · rw [postEvent_isSome, postEvent_spinners]
        exact ⟨fun _ => hdrop, fun _ => hsome⟩
      · rw [postEvent_sysStdout, postEvent_spinners]
        exact ⟨fun _ => hdrop, fun _ => ih.2.1.mpr hne⟩
      · rw [postEvent_sysStderr, postEvent_spinners]
        exact ⟨fun _ => hdrop, fun _ => ih.2.2.mpr hne⟩
  | post g e _ ih =>
    rw [show (postEvent g e).spinners = g.spinners from postEvent_spinners g e]
    rw [show (postEvent g e).spinnerThread.isSome = g.spinnerThread.isSome from
      postEvent_isSome g e]
    rw [postEvent_sysStdout, postEvent_sysStderr]
    exact ih
  | drain g _ ih =>
    rw [drainWorker_spinners, drainWorker_isSome, drainWorker_sysStdout,
      drainWorker_sysStderr]
    exact ih

/-- C8 (witness): the invariant at the initial (reachable) registry
state. -/
theorem C8_witness :
    (initGlobal.spinnerThread.isSome = true ↔ initGlobal.spinners ≠ [])
    ∧ (initGlobal.sysStdout = .fake ↔ initGlobal.spinners ≠ [])
    ∧ (initGlobal.sysStderr = .fake ↔ initGlobal.spinners ≠ []) :=
  C8_theorem initGlobal Reachable.init
